import Mathlib

/-!
Shallow embedding of the filter-sort core of the `bgg-what-to-play`
repository (TypeScript), for checking its natural-language specification.

Modelling conventions:
* JS `number` is modelled as `ℚ`; where the code stores `Infinity` in the
  max bound of a range (player count, playtime) the bound is `WithTop ℚ`.
* The `NaN` that can occur in a poll entry's `NotRecommendedPercent` is
  modelled by `Option ℚ` with `none` for `NaN`.
* A rating that is not a number (the site's "not available") is modelled by
  `Option ℚ` with `none` for the non-numeric value.
* JS strings are Lean `String`s; character-level operations (`split("-")`,
  `parseFloat`) are carried out on `String.data`.
* `Array.prototype.sort(cmp)` (a stable sort by a numeric comparator) is
  modelled by `List.mergeSort` with the boolean relation `cmp a b ≤ 0`.
-/

namespace BggApp

/-- The three-valued `showRatings` mode of the filter state. -/
inductive ShowRatingsMode where
  | NO_RATING
  | AVERAGE_RATING
  | USER_RATING
deriving DecidableEq, Repr

/-- One entry of a game's `recommendedPlayerCount` poll list
(`playerCountValue`, `sortScore`, `NotRecommendedPercent`; the purely
presentational `numplayers` label is not part of the pipeline logic).
`NotRecommendedPercent = none` models `NaN` (missing poll data). -/
structure PollRec where
  playerCountValue : ℚ
  sortScore : ℚ
  NotRecommendedPercent : Option ℚ
deriving DecidableEq, Repr

/-- A `PollRec` after the pipeline's annotation stage added the
`isPlayerCountWithinRange` flag. -/
structure AnnotatedRec extends PollRec where
  isPlayerCountWithinRange : Bool
deriving DecidableEq, Repr

/-- A collection item (the TS `SimpleBoardGame`), parametrised by the type of
its poll entries (`PollRec` before annotation, `AnnotatedRec` after).
`userRating = none` models the non-numeric "N/A" value. -/
structure GameOf (ρ : Type) where
  id : ℕ
  name : String
  type : String
  minPlayers : ℚ
  maxPlayers : ℚ
  minPlaytime : ℚ
  maxPlaytime : ℚ
  averageWeight : ℚ
  userRating : Option ℚ
  averageRating : ℚ
  recommendedPlayerCount : List ρ
deriving DecidableEq, Repr

abbrev SimpleBoardGame := GameOf PollRec

abbrev AnnotatedBoardGame := GameOf AnnotatedRec

/-- The `CollectionFilterState` record from `useCollectionFilters.ts`
(`initialFilterState`'s shape). The max bounds of `playerCountRange` and
`playtimeRange` may be `Infinity` (`⊤`). -/
structure CollectionFilterState where
  username : String
  showInvalidPlayerCount : Bool
  playerCountRange : ℚ × WithTop ℚ
  playtimeRange : ℚ × WithTop ℚ
  complexityRange : ℚ × ℚ
  showExpansions : Bool
  showRatings : ShowRatingsMode
  ratingsRange : ℚ × ℚ
  showNotRecommended : Bool
  isDebug : Bool
deriving DecidableEq, Repr

/-! ### The ratings codec (`ratingsService.ts`) -/

/-- `DEFAULT_RATINGS_MIN` from `ratingsService.ts`. -/
def DEFAULT_RATINGS_MIN : ℚ := 1

/-- `DEFAULT_RATINGS_MAX` from `ratingsService.ts`. -/
def DEFAULT_RATINGS_MAX : ℚ := 10

/-- `DEFAULT_RANGE` from `ratingsService.ts`. -/
def DEFAULT_RANGE : ℚ × ℚ := (DEFAULT_RATINGS_MIN, DEFAULT_RATINGS_MAX)

/-- lodash `_.clamp(x, lo, hi)`. -/
def clamp (x lo hi : ℚ) : ℚ := min (max x lo) hi

/-- Value of a digit list read as a base-10 natural number. -/
def digitsToNat (cs : List Char) : ℕ :=
  cs.foldl (fun n c => 10 * n + (c.toNat - 48)) 0

/-- JS `parseFloat` on a character list, modelled for the sign / integer /
decimal-fraction forms the codec can meet: skip leading whitespace, optional
`+`/`-`, a digit run, optionally `.` and a further digit run; any trailing
junk is ignored (prefix parsing); `none` models `NaN` (no digit found).
The parsed value `sign * (int + frac / 10 ^ |frac|)` is built with `mkRat`.
The exotic `parseFloat` inputs (exponent notation, the literal string
`Infinity`) are outside this model. -/
def parseFloatChars (cs0 : List Char) : Option ℚ :=
  let cs := cs0.dropWhile Char.isWhitespace
  let signAndRest : Int × List Char :=
    match cs with
    | '-' :: t => (-1, t)
    | '+' :: t => (1, t)
    | _ => (1, cs)
  let sign := signAndRest.1
  let rest := signAndRest.2
  let intPart := rest.takeWhile Char.isDigit
  let rest2 := rest.dropWhile Char.isDigit
  let fracPart : List Char :=
    match rest2 with
    | '.' :: t => t.takeWhile Char.isDigit
    | _ => []
  if intPart.isEmpty ∧ fracPart.isEmpty then none
  else some (mkRat
    (sign * ((digitsToNat intPart : Int) * 10 ^ fracPart.length +
      (digitsToNat fracPart : Int)))
    (10 ^ fracPart.length))

/-- JS `parseFloat` on a string (see `parseFloatChars`). -/
def parseFloat (s : String) : Option ℚ := parseFloatChars s.data

/-- JS `String.prototype.split("-")` on a character list. -/
def splitOnDash : List Char → List (List Char)
  | [] => [[]]
  | c :: cs =>
    if c = '-' then [] :: splitOnDash cs
    else
      match splitOnDash cs with
      | [] => [[c]]
      | p :: ps => (c :: p) :: ps

/-- `convertRangeQueryParamToValue` from `ratingsService.ts`: decode a
persisted ratings query-parameter value (`none` = parameter absent) into a
`[min, max]` pair. Mirrors the source: falsy (absent or empty) value gives
the default range; otherwise the value is normalised to `"min-max"` shape
(doubling it when it holds no `"-"`), split on `"-"`, and each part is
`parseFloat`ed, with `NaN` falling back to the matching default bound and
numeric parts clamped into `[1, 10]`. -/
def convertRangeQueryParamToValue (value : Option String) : ℚ × ℚ :=
  match value with
  | none => DEFAULT_RANGE
  | some v =>
    if v.data = [] then DEFAULT_RANGE
    else
      let normalizedValue : List Char :=
        if v.data.contains '-' then v.data else v.data ++ '-' :: v.data
      let parts := splitOnDash normalizedValue
      let minRangeStr := parts.getD 0 []
      let maxRangeStr := parts.getD 1 []
      let minRange : ℚ :=
        match parseFloatChars minRangeStr with
        | none => DEFAULT_RATINGS_MIN
        | some q => clamp q DEFAULT_RATINGS_MIN DEFAULT_RATINGS_MAX
      let maxRange : ℚ :=
        match parseFloatChars maxRangeStr with
        | none => DEFAULT_RATINGS_MAX
        | some q => clamp q DEFAULT_RATINGS_MIN DEFAULT_RATINGS_MAX
      (minRange, maxRange)

namespace ratingsService

/-- `getInitialState` from `ratingsService.ts`, as a function of the raw
persisted string the query-parameter store returns for `"ratings"`. -/
def getInitialState (raw : Option String) : ℚ × ℚ :=
  convertRangeQueryParamToValue raw

/-- `getReducedState` from `ratingsService.ts`: replace `ratingsRange` with
the payload, keep every other field. -/
def getReducedState (state : CollectionFilterState) (payload : ℚ × ℚ) :
    CollectionFilterState :=
  { state with ratingsRange := (payload.1, payload.2) }

end ratingsService

/-! ### Membership predicates (`slider-utils.ts` and the four services) -/

/-- Modelled from the spec: `isBoardGameRangeWithinFilterRange` lives in
`slider-utils.ts`, which is not among the provided sources. Per §4.2 it is
interval overlap: true iff the game's own `[min, max]` interval intersects
the filter's `[min, max]` range (whose max bound may be `+∞`). -/
def isBoardGameRangeWithinFilterRange (gameRange : ℚ × ℚ)
    (filterRange : ℚ × WithTop ℚ) : Bool :=
  decide (filterRange.1 ≤ gameRange.2) &&
  decide ((gameRange.1 : WithTop ℚ) ≤ filterRange.2)

namespace playerCountService

/-- Modelled from the spec: `playerCountService.ts` is not among the provided
sources. Per §4.2 its membership predicate is true iff the game's declared
`[minPlayers, maxPlayers]` interval intersects the active player-count
range (interval overlap, not point containment). -/
def isWithinRange (filterState : CollectionFilterState)
    (game : SimpleBoardGame) : Bool :=
  isBoardGameRangeWithinFilterRange (game.minPlayers, game.maxPlayers)
    filterState.playerCountRange

end playerCountService

namespace playtimeService

/-- Modelled from the spec: `playtimeService.ts` is not among the provided
sources. Per the §4.2 table its compared field is the game's
`[minPlaytime, maxPlaytime]` interval, under the same overlap predicate. -/
def isWithinRange (filterState : CollectionFilterState)
    (game : SimpleBoardGame) : Bool :=
  isBoardGameRangeWithinFilterRange (game.minPlaytime, game.maxPlaytime)
    filterState.playtimeRange

end playtimeService

namespace complexityService

/-- Modelled from the spec: `complexityService.ts` is not among the provided
sources. Per §4.2 the item's single `averageWeight` value must lie in the
active `[min, max]` complexity range. -/
def isWithinRange (filterState : CollectionFilterState)
    (game : SimpleBoardGame) : Bool :=
  decide (filterState.complexityRange.1 ≤ game.averageWeight) &&
  decide (game.averageWeight ≤ filterState.complexityRange.2)

end complexityService

namespace ratingsService

/-- `isWithinRange` from `ratingsService.ts`: select the user rating when
`showRatings = "USER_RATING"` and the average rating otherwise; a
non-numeric value becomes `DEFAULT_RATINGS_MIN`; then test the degenerate
interval `[rating, rating]` against `ratingsRange` via
`isBoardGameRangeWithinFilterRange`. -/
def isWithinRange (filterState : CollectionFilterState)
    (game : SimpleBoardGame) : Bool :=
  let userOrAverageRating : Option ℚ :=
    if filterState.showRatings = ShowRatingsMode.USER_RATING then
      game.userRating
    else some game.averageRating
  let rating : ℚ :=
    match userOrAverageRating with
    | some r => r
    | none => DEFAULT_RATINGS_MIN
  isBoardGameRangeWithinFilterRange (rating, rating)
    (filterState.ratingsRange.1, (filterState.ratingsRange.2 : WithTop ℚ))

end ratingsService

/-! ### The pipeline (`useCollectionFilters.ts`, `applyFiltersAndSorts`) -/

/-- `maybeOutputList` from `useCollectionFilters.ts`: the debug tap; it only
`console.log`s under `isDebug` and always returns the item unchanged, so it
is the identity on the data. -/
def maybeOutputList (filterState : CollectionFilterState)
    (groupLabel : String) {ρ : Type} (game : GameOf ρ) : GameOf ρ :=
  game

/-- `maybeShowExpansions` from `useCollectionFilters.ts`. -/
def maybeShowExpansions (filterState : CollectionFilterState)
    (game : SimpleBoardGame) : Bool :=
  if filterState.showExpansions then true
  else game.type = "boardgame"

/-- `removeRecsLessThan` from `useCollectionFilters.ts`. -/
def removeRecsLessThan (minPlayers : ℚ) (rec : PollRec) : Bool :=
  decide (minPlayers ≤ rec.playerCountValue)

/-- `removeRecsMoreThan` from `useCollectionFilters.ts`. -/
def removeRecsMoreThan (maxPlayers : ℚ) (rec : PollRec) : Bool :=
  decide (rec.playerCountValue ≤ maxPlayers)

/-- `maybeShowInvalidPlayerCount` from `useCollectionFilters.ts`: unless
`showInvalidPlayerCount`, keep only the poll entries whose
`playerCountValue` lies within the game's own `[minPlayers, maxPlayers]`. -/
def maybeShowInvalidPlayerCount (filterState : CollectionFilterState)
    (game : SimpleBoardGame) : SimpleBoardGame :=
  if filterState.showInvalidPlayerCount then game
  else
    { game with
      recommendedPlayerCount :=
        (game.recommendedPlayerCount.filter
          (removeRecsLessThan game.minPlayers)).filter
          (removeRecsMoreThan game.maxPlayers) }

/-- `addIsPlayerCountWithinRange` from `useCollectionFilters.ts`: annotate
every poll entry with whether its `playerCountValue` falls in the active
player-count filter range. -/
def addIsPlayerCountWithinRange (filterState : CollectionFilterState)
    (game : SimpleBoardGame) : AnnotatedBoardGame :=
  { game with
    recommendedPlayerCount := game.recommendedPlayerCount.map fun rec =>
      { rec with
        isPlayerCountWithinRange :=
          decide (filterState.playerCountRange.1 ≤ rec.playerCountValue) &&
          decide ((rec.playerCountValue : WithTop ℚ) ≤
            filterState.playerCountRange.2) } }

/-- The per-entry test of `maybeShowNotRecommended`:
`NotRecommendedPercent <= 50 || Number.isNaN(NotRecommendedPercent)`
(recall `none` models `NaN`, for which the JS `<=` is false). -/
def notRecommendedPasses (percent : Option ℚ) : Bool :=
  match percent with
  | some p => decide (p ≤ 50)
  | none => true

/-- `maybeShowNotRecommended` from `useCollectionFilters.ts`: when neither
`showNotRecommended` nor `showInvalidPlayerCount` is set, keep a game only
if some in-range poll entry is not majority-not-recommended (or has no
data). -/
def maybeShowNotRecommended (filterState : CollectionFilterState)
    (game : AnnotatedBoardGame) : Bool :=
  if filterState.showNotRecommended || filterState.showInvalidPlayerCount then
    true
  else
    (game.recommendedPlayerCount.filter fun rec =>
      rec.isPlayerCountWithinRange &&
        notRecommendedPasses rec.NotRecommendedPercent).length > 0

/-- `calcSortScoreSum` from `useCollectionFilters.ts`: sum of `sortScore`
over the poll entries whose `playerCountValue` lies in `[minRange, maxRange]`. -/
def calcSortScoreSum (game : AnnotatedBoardGame) (minRange : ℚ)
    (maxRange : WithTop ℚ) : ℚ :=
  (game.recommendedPlayerCount.filter fun g =>
    decide (minRange ≤ g.playerCountValue) &&
    decide ((g.playerCountValue : WithTop ℚ) ≤ maxRange)).foldl
    (fun prev curr => curr.sortScore + prev) 0

/-- Strict lexicographic comparison of character lists, the order underlying
the model of `localeCompare`. -/
def lexLtChars : List Char → List Char → Bool
  | [], [] => false
  | [], _ :: _ => true
  | _ :: _, [] => false
  | a :: as, b :: bs =>
    if a < b then true else if b < a then false else lexLtChars as bs

/-- Modelled JS `String.prototype.localeCompare`: locale-aware collation is
modelled as plain lexicographic comparison of the characters, returning the
comparator values `-1`, `0`, `1`. -/
def localeCompare (a b : String) : ℚ :=
  if lexLtChars a.data b.data then -1
  else if a.data = b.data then 0
  else 1

/-- `maybeSortByScore` from `useCollectionFilters.ts`: the sort comparator.
With a non-default player-count range it compares descending by
`calcSortScoreSum`; otherwise ascending by name via `localeCompare`. -/
def maybeSortByScore (filterState : CollectionFilterState)
    (gameA gameB : AnnotatedBoardGame) : ℚ :=
  if filterState.playerCountRange.1 ≠ 1 ∨ filterState.playerCountRange.2 ≠ ⊤
  then
    calcSortScoreSum gameB filterState.playerCountRange.1
        filterState.playerCountRange.2 -
      calcSortScoreSum gameA filterState.playerCountRange.1
        filterState.playerCountRange.2
  else
    localeCompare gameA.name gameB.name

/-- JS `Array.prototype.sort(cmp)` (a stable sort by a numeric comparator),
modelled by `List.mergeSort` with the relation `cmp a b ≤ 0`. -/
def sortJS {α : Type} (cmp : α → α → ℚ) (l : List α) : List α :=
  l.mergeSort (fun a b => decide (cmp a b ≤ 0))

/-- `applyFiltersAndSorts` from `useCollectionFilters.ts`, on a present
(non-null) games list: the staged filter / annotate / sort pipeline. -/
def applyFiltersAndSorts (filterState : CollectionFilterState)
    (games : List SimpleBoardGame) : List AnnotatedBoardGame :=
  ((((((((((((((((games.map
    (maybeOutputList filterState "All Games")).filter
    (maybeShowExpansions filterState)).map
    (maybeOutputList filterState "maybeShowExpansions")).map
    (maybeShowInvalidPlayerCount filterState)).filter
    (playerCountService.isWithinRange filterState)).map
    (maybeOutputList filterState "isMinMaxPlayerRangeWithinRange")).filter
    (playtimeService.isWithinRange filterState)).map
    (maybeOutputList filterState "isPlaytimeWithinRange")).filter
    (complexityService.isWithinRange filterState)).map
    (maybeOutputList filterState "isComplexityWithinRange")).filter
    (ratingsService.isWithinRange filterState)).map
    (maybeOutputList filterState "isRatingsWithinRange")).map
    (addIsPlayerCountWithinRange filterState)).filter
    (maybeShowNotRecommended filterState)).map
    (maybeOutputList filterState "maybeShowNotRecommended")) |>
    sortJS (maybeSortByScore filterState))

/-- The public entry as written in the source, `games?. ...`: the optional
chaining makes the whole pipeline return absent (`none`) when `games` is
null/undefined. -/
def applyFiltersAndSortsOpt (filterState : CollectionFilterState)
    (games : Option (List SimpleBoardGame)) :
    Option (List AnnotatedBoardGame) :=
  games.map (applyFiltersAndSorts filterState)

/-! ### Persistence sync and reducer (`useCollectionFilters.ts`) -/

/-- The URL's query parameters (`URLSearchParams`), as a flat string
key-value list. -/
abbrev SearchParams := List (String × String)

/-- `URLSearchParams.delete(key)`. -/
def deleteParam (ps : SearchParams) (key : String) : SearchParams :=
  ps.filter fun p => decide (p.1 ≠ key)

/-- `URLSearchParams.set(key, value)` (replaces any existing entry; the
position of the entry is immaterial to the model). -/
def setParam (ps : SearchParams) (key value : String) : SearchParams :=
  deleteParam ps key ++ [(key, value)]

/-- The browser world the sync step writes to: the current location's query
parameters and the number of history entries. `history.pushState(url)`
replaces the location and adds one history entry. -/
structure World where
  location : SearchParams
  historyLength : ℕ
deriving DecidableEq, Repr

/-- Rendering of a finite bound for the modelled range encoding. -/
def renderQ (q : ℚ) : String := toString q

/-- Rendering of a possibly-infinite bound for the modelled range encoding. -/
def renderQT : WithTop ℚ → String
  | ⊤ => "Infinity"
  | (q : ℚ) => toString q

/-- Modelled from the spec: the `maybeSetQueryParam` range encoder of
`slider-utils.ts` (not among the provided sources), finite-bound variant.
Per §4.1: omit (delete) the key when the value equals the default, else emit
`"n"` when `min = max` and `"n-m"` otherwise. -/
def maybeSetRangeParamF (ps : SearchParams) (value default : ℚ × ℚ)
    (key : String) : SearchParams :=
  if value = default then deleteParam ps key
  else
    setParam ps key
      (if value.1 = value.2 then renderQ value.1
       else renderQ value.1 ++ "-" ++ renderQ value.2)

/-- Modelled from the spec: as `maybeSetRangeParamF`, for the ranges whose
max bound may be `+∞` (player count, playtime). -/
def maybeSetRangeParamT (ps : SearchParams) (value default : ℚ × WithTop ℚ)
    (key : String) : SearchParams :=
  if value = default then deleteParam ps key
  else
    setParam ps key
      (if (value.1 : WithTop ℚ) = value.2 then renderQ value.1
       else renderQ value.1 ++ "-" ++ renderQT value.2)

namespace ratingsService

/-- `setQueryParam` from `ratingsService.ts`: encode `ratingsRange` under the
`"ratings"` key against the default `[1, 10]` via the slider-utils encoder. -/
def setQueryParam (searchParams : SearchParams)
    (state : CollectionFilterState) : SearchParams :=
  maybeSetRangeParamF searchParams state.ratingsRange DEFAULT_RANGE "ratings"

end ratingsService

namespace playerCountService

/-- Modelled from the spec: `playerCountService.ts` is not among the provided
sources; §6 gives the key shape and the default `1-∞`. -/
def setQueryParam (searchParams : SearchParams)
    (state : CollectionFilterState) : SearchParams :=
  maybeSetRangeParamT searchParams state.playerCountRange (1, ⊤) "playerCount"

/-- Modelled from the spec: `getReducedState` of `playerCountService.ts`
(not among the provided sources): per §4.2, return `state` with only this
field replaced. -/
def getReducedState (state : CollectionFilterState)
    (payload : ℚ × WithTop ℚ) : CollectionFilterState :=
  { state with playerCountRange := payload }

end playerCountService

namespace playtimeService

/-- Modelled from the spec: `playtimeService.ts` is not among the provided
sources; §6 gives the key shape and the default `0-∞`. -/
def setQueryParam (searchParams : SearchParams)
    (state : CollectionFilterState) : SearchParams :=
  maybeSetRangeParamT searchParams state.playtimeRange (0, ⊤) "playtime"

/-- Modelled from the spec: `getReducedState` of `playtimeService.ts` (not
among the provided sources): per §4.2, return `state` with only this field
replaced. -/
def getReducedState (state : CollectionFilterState)
    (payload : ℚ × WithTop ℚ) : CollectionFilterState :=
  { state with playtimeRange := payload }

end playtimeService

namespace complexityService

/-- Modelled from the spec: `complexityService.ts` is not among the provided
sources; §6 gives the key shape and the default `1-5`. -/
def setQueryParam (searchParams : SearchParams)
    (state : CollectionFilterState) : SearchParams :=
  maybeSetRangeParamF searchParams state.complexityRange (1, 5) "complexity"

/-- Modelled from the spec: `getReducedState` of `complexityService.ts` (not
among the provided sources): per §4.2, return `state` with only this field
replaced. -/
def getReducedState (state : CollectionFilterState) (payload : ℚ × ℚ) :
    CollectionFilterState :=
  { state with complexityRange := payload }

end complexityService

namespace username

/-- Modelled from the spec: `username.ts` is not among the provided sources;
per §6 the session identity is persisted as a raw string, omitted when
empty. -/
def setQueryParam (searchParams : SearchParams)
    (state : CollectionFilterState) : SearchParams :=
  if state.username = "" then deleteParam searchParams "username"
  else setParam searchParams "username" state.username

/-- Modelled from the spec: `getReducedState` of `username.ts` (not among the
provided sources): replace the username field. -/
def getReducedState (state : CollectionFilterState) (payload : String) :
    CollectionFilterState :=
  { state with username := payload }

end username

namespace showRatings

/-- Modelled from the spec: `showRatings.ts` is not among the provided
sources; per §6 the ratings mode is persisted as an enumeration tag with the
average mode as the omitted default. -/
def setQueryParam (searchParams : SearchParams)
    (state : CollectionFilterState) : SearchParams :=
  match state.showRatings with
  | ShowRatingsMode.AVERAGE_RATING => deleteParam searchParams "showRatings"
  | ShowRatingsMode.USER_RATING =>
    setParam searchParams "showRatings" "USER_RATING"
  | ShowRatingsMode.NO_RATING => setParam searchParams "showRatings" "NO_RATING"

/-- Modelled from the spec: the explicit-set transition of the three-valued
ratings-mode control (§4.3). -/
def getReducedState (state : CollectionFilterState)
    (payload : ShowRatingsMode) : CollectionFilterState :=
  { state with showRatings := payload }

/-- Modelled from the spec: `getToggleShowRatings` of `showRatings.ts` (not
among the provided sources): the toggle variant of the ratings-mode control,
cycling through the three modes. -/
def getToggleShowRatings (state : CollectionFilterState) :
    CollectionFilterState :=
  { state with
    showRatings :=
      match state.showRatings with
      | ShowRatingsMode.NO_RATING => ShowRatingsMode.AVERAGE_RATING
      | ShowRatingsMode.AVERAGE_RATING => ShowRatingsMode.USER_RATING
      | ShowRatingsMode.USER_RATING => ShowRatingsMode.NO_RATING }

end showRatings

namespace booleanQueryParam

/-- Modelled from the spec: `booleanQueryParam.ts` is not among the provided
sources; §6 leaves the exact boolean encoding implementation-chosen, with
`false` as the omitted default — modelled as presence = `"1"`. -/
def setQueryParam (searchParams : SearchParams) (queryParamKey : String)
    (value : Bool) : SearchParams :=
  if value then setParam searchParams queryParamKey "1"
  else deleteParam searchParams queryParamKey

end booleanQueryParam

/-- `maybeSetQueryParam` from `useCollectionFilters.ts` (the Persistence
Sync step): a no-op when `state.username` is falsy (empty); otherwise every
control's `setQueryParam` is applied to the current location's parameters
and `history.pushState` commits the result, adding one history entry. -/
def maybeSetQueryParam (state : CollectionFilterState) (world : World) :
    World :=
  if state.username = "" then world
  else
    let p1 := username.setQueryParam world.location state
    let p2 := playerCountService.setQueryParam p1 state
    let p3 := playtimeService.setQueryParam p2 state
    let p4 := complexityService.setQueryParam p3 state
    let p5 := ratingsService.setQueryParam p4 state
    let p6 := showRatings.setQueryParam p5 state
    let p7 := booleanQueryParam.setQueryParam p6 "showExpansions"
      state.showExpansions
    let p8 := booleanQueryParam.setQueryParam p7 "showNotRec"
      state.showNotRecommended
    let p9 := booleanQueryParam.setQueryParam p8 "showInvalid"
      state.showInvalidPlayerCount
    let p10 := booleanQueryParam.setQueryParam p9 "debug" state.isDebug
    { location := p10, historyLength := world.historyLength + 1 }

/-- The closed action set of the reducer (`actions` in
`useCollectionFilters.ts`). -/
inductive Action where
  | SET_COMPLEXITY (payload : ℚ × ℚ)
  | SET_PLAYER_COUNT_RANGE (payload : ℚ × WithTop ℚ)
  | SET_PLAYTIME_RANGE (payload : ℚ × WithTop ℚ)
  | SET_USERNAME (payload : String)
  | TOGGLE_SHOW_RATINGS
  | SET_SHOW_RATINGS (payload : ShowRatingsMode)
  | SET_RATINGS (payload : ℚ × ℚ)
  | TOGGLE_SHOW_EXPANSIONS
  | TOGGLE_SHOW_INVALID_PLAYER_COUNT
  | TOGGLE_SHOW_NOT_RECOMMENDED_PLAYER_COUNT
deriving DecidableEq, Repr

/-- The pure part of the reducer: the action-tag → handler map applied to
the state (the boolean toggles flip their field, ignoring the payload). -/
def applyAction (state : CollectionFilterState) : Action →
    CollectionFilterState
  | Action.SET_COMPLEXITY payload =>
    complexityService.getReducedState state payload
  | Action.SET_PLAYER_COUNT_RANGE payload =>
    playerCountService.getReducedState state payload
  | Action.SET_PLAYTIME_RANGE payload =>
    playtimeService.getReducedState state payload
  | Action.SET_USERNAME payload => username.getReducedState state payload
  | Action.TOGGLE_SHOW_RATINGS => showRatings.getToggleShowRatings state
  | Action.SET_SHOW_RATINGS payload =>
    showRatings.getReducedState state payload
  | Action.SET_RATINGS payload => ratingsService.getReducedState state payload
  | Action.TOGGLE_SHOW_EXPANSIONS =>
    { state with showExpansions := !state.showExpansions }
  | Action.TOGGLE_SHOW_INVALID_PLAYER_COUNT =>
    { state with showInvalidPlayerCount := !state.showInvalidPlayerCount }
  | Action.TOGGLE_SHOW_NOT_RECOMMENDED_PLAYER_COUNT =>
    { state with showNotRecommended := !state.showNotRecommended }

/-- `reducer` from `useCollectionFilters.ts`: apply the handler, run the
Persistence Sync side effect on the new state, return the new state (the
side effect on the browser world is threaded explicitly). -/
def reducer (state : CollectionFilterState) (action : Action)
    (world : World) : CollectionFilterState × World :=
  let newState := applyAction state action
  (newState, maybeSetQueryParam newState world)

/-- The `onChange` handler of `PlayerCountSlider.tsx`: every slider movement
(also the intermediate ones during an uncommitted drag) dispatches
`SET_PLAYER_COUNT_RANGE` with the current slider value. -/
def playerCountSliderOnChange (value : ℚ × WithTop ℚ)
    (sw : CollectionFilterState × World) : CollectionFilterState × World :=
  reducer sw.1 (Action.SET_PLAYER_COUNT_RANGE value) sw.2

/-! ### Concrete fixtures used by witnesses and counterexamples -/

/-- A filter state with all criteria at their defaults and no username. -/
def emptyUserState : CollectionFilterState :=
  { username := ""
    showInvalidPlayerCount := false
    playerCountRange := (1, ⊤)
    playtimeRange := (0, ⊤)
    complexityRange := (1, 5)
    showExpansions := false
    showRatings := ShowRatingsMode.AVERAGE_RATING
    ratingsRange := (1, 10)
    showNotRecommended := false
    isDebug := false }

/-- The default filter state for the session of user `"alice"`. -/
def aliceState : CollectionFilterState :=
  { emptyUserState with username := "alice" }

/-- A browser world with one persisted parameter and some history. -/
def sampleWorld : World :=
  { location := [("ratings", "7-9")], historyLength := 5 }

/-- An annotated in-range poll entry with missing (`NaN`) poll data. -/
def recNaN : AnnotatedRec :=
  { playerCountValue := 3
    sortScore := 5
    NotRecommendedPercent := none
    isPlayerCountWithinRange := true }

/-- An annotated game whose sole poll entry is `recNaN`. -/
def gameNaN : AnnotatedBoardGame :=
  { id := 1
    name := "Azul"
    type := "boardgame"
    minPlayers := 2
    maxPlayers := 4
    minPlaytime := 30
    maxPlaytime := 45
    averageWeight := 2
    userRating := none
    averageRating := 7
    recommendedPlayerCount := [recNaN] }

/-! ### Helper lemmas -/

theorem splitOnDash_no_dash (cs : List Char) (h : '-' ∉ cs) :
    splitOnDash cs = [cs] := by
  induction cs with
  | nil => rfl
  | cons c cs ih =>
    have hc : ¬ c = '-' := fun hc => h (hc ▸ List.mem_cons_self c cs)
    have hcs : '-' ∉ cs := fun hm => h (List.mem_cons_of_mem _ hm)
    simp [splitOnDash, hc, ih hcs]

theorem splitOnDash_append (cs₁ cs₂ : List Char) (h : '-' ∉ cs₁) :
    splitOnDash (cs₁ ++ '-' :: cs₂) = cs₁ :: splitOnDash cs₂ := by
  induction cs₁ with
  | nil => simp [splitOnDash]
  | cons c cs ih =>
    have hc : ¬ c = '-' := fun hc => h (hc ▸ List.mem_cons_self c cs)
    have hcs : '-' ∉ cs := fun hm => h (List.mem_cons_of_mem _ hm)
    simp [splitOnDash, hc, ih hcs]

theorem contains_eq_false_of_not_mem {cs : List Char} {c : Char}
    (h : c ∉ cs) : cs.contains c = false := by
  simp [List.contains]
  exact h

theorem convert_no_dash (s : String) (h1 : s.data ≠ []) (h2 : '-' ∉ s.data) :
    convertRangeQueryParamToValue (some s) =
      (match parseFloatChars s.data with
       | none => ((1 : ℚ), (10 : ℚ))
       | some q => (clamp q 1 10, clamp q 1 10)) := by
  have hc : s.data.contains '-' = false := contains_eq_false_of_not_mem h2
  simp only [convertRangeQueryParamToValue, h1, if_neg, hc, Bool.false_eq_true,
    if_false, reduceCtorEq]
  simp only [splitOnDash_append s.data s.data h2, splitOnDash_no_dash s.data h2,
    List.getD_cons_zero, List.getD_cons_succ]
  rcases hp : parseFloatChars s.data with _ | q <;>
    simp [hp, DEFAULT_RATINGS_MIN, DEFAULT_RATINGS_MAX, DEFAULT_RANGE]

theorem convert_dash (s₁ s₂ : String) (h1 : '-' ∉ s₁.data)
    (h2 : '-' ∉ s₂.data) :
    convertRangeQueryParamToValue (some (s₁ ++ "-" ++ s₂)) =
      ((match parseFloatChars s₁.data with
        | none => (1 : ℚ)
        | some q => clamp q 1 10),
       (match parseFloatChars s₂.data with
        | none => (10 : ℚ)
        | some q => clamp q 1 10)) := by
  have hdash : "-".data = ['-'] := by decide
  have hdata : (s₁ ++ "-" ++ s₂).data = s₁.data ++ '-' :: s₂.data := by
    simp [String.data_append, hdash]
  have hne : ¬ (s₁ ++ "-" ++ s₂).data = [] := by simp [hdata]
  have hc : (s₁ ++ "-" ++ s₂).data.contains '-' = true := by
    simp [hdata, List.contains]
  simp only [convertRangeQueryParamToValue, hne, if_neg, hc, if_true,
    Bool.false_eq_true, if_false, reduceCtorEq]
  simp only [hdata, splitOnDash_append s₁.data s₂.data h1,
    splitOnDash_no_dash s₂.data h2, List.getD_cons_zero, List.getD_cons_succ]
  rcases hp1 : parseFloatChars s₁.data with _ | q₁ <;>
    rcases hp2 : parseFloatChars s₂.data with _ | q₂ <;>
      simp [hp1, hp2, DEFAULT_RATINGS_MIN, DEFAULT_RATINGS_MAX]

theorem notRecommendedPasses_iff (x : Option ℚ) :
    notRecommendedPasses x = true ↔
      x = none ∨ ∃ p, x = some p ∧ p ≤ 50 := by
  cases x with
  | none => simp [notRecommendedPasses]
  | some p => simp [notRecommendedPasses]

theorem maybeShowNotRecommended_iff (fs : CollectionFilterState)
    (game : AnnotatedBoardGame) :
    maybeShowNotRecommended fs game = true ↔
      fs.showNotRecommended = true ∨ fs.showInvalidPlayerCount = true ∨
        ∃ rec ∈ game.recommendedPlayerCount,
          rec.isPlayerCountWithinRange = true ∧
          notRecommendedPasses rec.NotRecommendedPercent = true := by
  unfold maybeShowNotRecommended
  cases hsn : fs.showNotRecommended <;> cases hsi : fs.showInvalidPlayerCount <;>
    simp [hsn, hsi]
  rw [List.length_pos]
  simp only [ne_eq, List.filter_eq_nil_iff]
  push_neg
  simp [Bool.and_eq_true]

/-! ### The claims -/

/-- C8: `ratingsService.getReducedState` produces a full replacement state
whose `ratingsRange` equals the payload pair and whose every other field
(username, playerCountRange, playtimeRange, complexityRange, showRatings,
showExpansions, showInvalidPlayerCount, showNotRecommended, isDebug) equals
the corresponding field of the input state. -/
theorem ratings_getReducedState_frame (state : CollectionFilterState)
    (payload : ℚ × ℚ) :
    (ratingsService.getReducedState state payload).ratingsRange = payload ∧
    (ratingsService.getReducedState state payload).username =
      state.username ∧
    (ratingsService.getReducedState state payload).playerCountRange =
      state.playerCountRange ∧
    (ratingsService.getReducedState state payload).playtimeRange =
      state.playtimeRange ∧
    (ratingsService.getReducedState state payload).complexityRange =
      state.complexityRange ∧
    (ratingsService.getReducedState state payload).showRatings =
      state.showRatings ∧
    (ratingsService.getReducedState state payload).showExpansions =
      state.showExpansions ∧
    (ratingsService.getReducedState state payload).showInvalidPlayerCount =
      state.showInvalidPlayerCount ∧
    (ratingsService.getReducedState state payload).showNotRecommended =
      state.showNotRecommended ∧
    (ratingsService.getReducedState state payload).isDebug = state.isDebug :=
  ⟨Prod.mk.eta, rfl, rfl, rfl, rfl, rfl, rfl, rfl, rfl, rfl⟩

/-- C7: when the state passed to the sync step has an empty username, the
reducer performs no write at all — the persisted query-parameter store and
the history are left unchanged — and still returns the new state produced by
the action handler. -/
theorem reducer_sync_gated_on_username (state : CollectionFilterState)
    (action : Action) (world : World)
    (h : (applyAction state action).username = "") :
    reducer state action world = (applyAction state action, world) := by
  simp [reducer, maybeSetQueryParam, h]

/-- Witness for C7 at a concrete empty-username state, action and world. -/
theorem reducer_sync_gated_on_username_witness :
    (applyAction emptyUserState (Action.SET_RATINGS (2, 3))).username = "" ∧
    reducer emptyUserState (Action.SET_RATINGS (2, 3)) sampleWorld =
      (applyAction emptyUserState (Action.SET_RATINGS (2, 3)), sampleWorld) :=
  ⟨rfl, reducer_sync_gated_on_username _ _ _ rfl⟩

/-- C10: `applyFiltersAndSorts` at the public entry never raises on an
absent games argument — the optional-chained pipeline short-circuits to an
absent result — and on an empty list it returns an empty list. -/
theorem applyFiltersAndSorts_absent_and_empty (fs : CollectionFilterState) :
    applyFiltersAndSortsOpt fs none = none ∧
    applyFiltersAndSortsOpt fs (some []) = some [] := by
  refine ⟨rfl, ?_⟩
  simp [applyFiltersAndSortsOpt, applyFiltersAndSorts, sortJS,
    List.mergeSort_nil, maybeOutputList]

/-- C4: in the not-recommended stage, if `showNotRecommended` or
`showInvalidPlayerCount` is true every item passes; otherwise an item passes
iff at least one of its poll entries marked `isPlayerCountWithinRange` has
`NotRecommendedPercent ≤ 50` or missing (`NaN`); in particular an item whose
sole in-range entry has missing data is retained even with
`showNotRecommended = false`. -/
theorem notRecommended_stage_spec :
    (∀ (fs : CollectionFilterState) (game : AnnotatedBoardGame),
      maybeShowNotRecommended fs game = true ↔
        fs.showNotRecommended = true ∨ fs.showInvalidPlayerCount = true ∨
          ∃ rec ∈ game.recommendedPlayerCount,
            rec.isPlayerCountWithinRange = true ∧
            (rec.NotRecommendedPercent = none ∨
              ∃ p, rec.NotRecommendedPercent = some p ∧ p ≤ 50)) ∧
    (∀ (fs : CollectionFilterState) (game : AnnotatedBoardGame)
      (rec : AnnotatedRec),
      game.recommendedPlayerCount = [rec] →
      rec.isPlayerCountWithinRange = true →
      rec.NotRecommendedPercent = none →
      fs.showNotRecommended = false →
      maybeShowNotRecommended fs game = true) := by
  constructor
  · intro fs game
    rw [maybeShowNotRecommended_iff]
    simp only [notRecommendedPasses_iff]
  · intro fs game rec hg hin hnan _
    rw [maybeShowNotRecommended_iff]
    refine Or.inr (Or.inr ⟨rec, by simp [hg], hin, ?_⟩)
    rw [notRecommendedPasses_iff]
    exact Or.inl hnan

/-- Witness for C4: the concrete sole-in-range-`NaN` game is retained. -/
theorem notRecommended_stage_spec_witness :
    maybeShowNotRecommended emptyUserState gameNaN = true :=
  notRecommended_stage_spec.2 emptyUserState gameNaN recNaN rfl rfl rfl rfl

/-- C6: `ratingsService.isWithinRange` holds iff the selected rating value —
`userRating` under `USER_RATING`, `averageRating` otherwise, a non-numeric
value replaced by the domain minimum `1` — lies within
the inclusive `ratingsRange` interval. -/
theorem ratings_isWithinRange_iff (fs : CollectionFilterState)
    (game : SimpleBoardGame) :
    ratingsService.isWithinRange fs game = true ↔
      (fs.ratingsRange.1 ≤
        ((if fs.showRatings = ShowRatingsMode.USER_RATING then game.userRating
          else some game.averageRating).getD 1) ∧
       ((if fs.showRatings = ShowRatingsMode.USER_RATING then game.userRating
          else some game.averageRating).getD 1) ≤ fs.ratingsRange.2) := by
  unfold ratingsService.isWithinRange isBoardGameRangeWithinFilterRange
  rcases h : (if fs.showRatings = ShowRatingsMode.USER_RATING then
      game.userRating else some game.averageRating) with _ | r <;>
    simp [h, DEFAULT_RATINGS_MIN, WithTop.coe_le_coe]

/-- C1: decoding a persisted ratings value is total (the model is a total
function) and follows the codec law: `"7-9"` decodes to `[7, 9]`; a bare
`"n"` decodes to `[n, n]` (clamped); a non-numeric or missing part falls
back to the matching default bound (min `1`, max `10`); every numeric part
is clamped into `[1, 10]`; a fully unparsable string such as `"foo"` (or a
missing value) decodes to the default `[1, 10]`. -/
theorem ratings_decode_codec_law :
    convertRangeQueryParamToValue (some "7-9") = (7, 9) ∧
    convertRangeQueryParamToValue none = (1, 10) ∧
    convertRangeQueryParamToValue (some "") = (1, 10) ∧
    convertRangeQueryParamToValue (some "foo") = (1, 10) ∧
    (∀ s : String, s.data ≠ [] → '-' ∉ s.data →
      convertRangeQueryParamToValue (some s) =
        (match parseFloatChars s.data with
         | none => ((1 : ℚ), (10 : ℚ))
         | some q => (clamp q 1 10, clamp q 1 10))) ∧
    (∀ s₁ s₂ : String, '-' ∉ s₁.data → '-' ∉ s₂.data →
      convertRangeQueryParamToValue (some (s₁ ++ "-" ++ s₂)) =
        ((match parseFloatChars s₁.data with
          | none => (1 : ℚ)
          | some q => clamp q 1 10),
         (match parseFloatChars s₂.data with
          | none => (10 : ℚ)
          | some q => clamp q 1 10))) :=
  ⟨by decide, by decide, by decide, by decide, convert_no_dash, convert_dash⟩

/-- Witness for C1 at the concrete bare value `"52"` (clamped to `10`). -/
theorem ratings_decode_codec_law_witness :
    ("52" : String).data ≠ [] ∧ '-' ∉ ("52" : String).data ∧
    convertRangeQueryParamToValue (some "52") =
      (match parseFloatChars ("52" : String).data with
       | none => ((1 : ℚ), (10 : ℚ))
       | some q => (clamp q 1 10, clamp q 1 10)) :=
  ⟨by decide, by decide,
    ratings_decode_codec_law.2.2.2.2.1 "52" (by decide) (by decide)⟩

/-- Counterexample to C2: the persisted string `"9-2"` decodes to the pair
`[9, 2]`, which violates `min ≤ max`; and `getReducedState` copies an
out-of-domain payload such as `(12, 0)` into the state unclamped. -/
theorem ratings_invariant_counterexample :
    convertRangeQueryParamToValue (some "9-2") = (9, 2) ∧
    ¬ ((convertRangeQueryParamToValue (some "9-2")).1 ≤
        (convertRangeQueryParamToValue (some "9-2")).2) ∧
    (ratingsService.getReducedState emptyUserState (12, 0)).ratingsRange =
      (12, 0) := by
  refine ⟨by decide, by decide, rfl⟩

/-- C2 amended: decoding clamps each bound individually into `[1, 10]` but
does not order them (`min ≤ max` can fail, e.g. on `"9-2"`), and
`getReducedState` copies the payload verbatim without re-clamping, so its
output satisfies the invariant exactly when the payload does. -/
theorem ratings_range_bounds_amended :
    (∀ raw : Option String,
      1 ≤ (convertRangeQueryParamToValue raw).1 ∧
      (convertRangeQueryParamToValue raw).1 ≤ 10 ∧
      1 ≤ (convertRangeQueryParamToValue raw).2 ∧
      (convertRangeQueryParamToValue raw).2 ≤ 10) ∧
    (∀ (state : CollectionFilterState) (payload : ℚ × ℚ),
      (ratingsService.getReducedState state payload).ratingsRange =
        payload) := by
  have hclamp : ∀ q : ℚ, 1 ≤ clamp q 1 10 ∧ clamp q 1 10 ≤ 10 := fun q =>
    ⟨le_min (le_max_right q 1) (by norm_num), min_le_right _ _⟩
  have hbound : ∀ (x : Option ℚ) (c : ℚ), 1 ≤ c → c ≤ 10 →
      1 ≤ (match x with | none => c | some q => clamp q 1 10) ∧
      (match x with | none => c | some q => clamp q 1 10) ≤ 10 := by
    intro x c hc1 hc2
    cases x with
    | none => exact ⟨hc1, hc2⟩
    | some q => exact hclamp q
  constructor
  · intro raw
    match raw with
    | none =>
      simp [convertRangeQueryParamToValue, DEFAULT_RANGE,
        DEFAULT_RATINGS_MIN, DEFAULT_RATINGS_MAX]
    | some v =>
      by_cases hv : v.data = []
      · simp [convertRangeQueryParamToValue, hv, DEFAULT_RANGE,
          DEFAULT_RATINGS_MIN, DEFAULT_RATINGS_MAX]
      · simp only [convertRangeQueryParamToValue, hv, if_neg,
          Bool.false_eq_true, if_false, reduceCtorEq, DEFAULT_RATINGS_MIN,
          DEFAULT_RATINGS_MAX]
        exact ⟨(hbound _ 1 (by norm_num) (by norm_num)).1,
          (hbound _ 1 (by norm_num) (by norm_num)).2,
          (hbound _ 10 (by norm_num) (by norm_num)).1,
          (hbound _ 10 (by norm_num) (by norm_num)).2⟩
  · intro state payload
    exact Prod.mk.eta

/-- C9 fails on the code: `maybeSetQueryParam` calls `history.pushState` on
every dispatch with a non-empty username, and `PlayerCountSlider.tsx`
dispatches `SET_PLAYER_COUNT_RANGE` from its `onChange` handler, which fires
for every intermediate slider movement of an uncommitted drag (the sibling
slider controls dispatch only from `onChangeCommitted`). Two intermediate
drag updates therefore add two history entries, where the claim allows
none before the commit. -/
theorem playerCountSlider_drag_pushes_history_per_update :
    ((playerCountSliderOnChange (2, 6)
        (playerCountSliderOnChange (2, 5) (aliceState, sampleWorld))).2
      ).historyLength = sampleWorld.historyLength + 2 := by
  decide

/-! ### Lemmas for the sort stage -/

theorem lexLtChars_trans : ∀ as bs cs : List Char,
    lexLtChars as bs = true → lexLtChars bs cs = true →
    lexLtChars as cs = true := by
  intro as
  induction as with
  | nil =>
    intro bs cs h1 h2
    cases bs with
    | nil => simp [lexLtChars] at h1
    | cons b bs =>
      cases cs with
      | nil => simp [lexLtChars] at h2
      | cons c cs => simp [lexLtChars]
  | cons a as ih =>
    intro bs cs h1 h2
    cases bs with
    | nil => simp [lexLtChars] at h1
    | cons b bs =>
      cases cs with
      | nil => simp [lexLtChars] at h2
      | cons c cs =>
        by_cases hab : a < b
        · by_cases hbc : b < c
          · simp [lexLtChars, lt_trans hab hbc]
          · by_cases hcb : c < b
            · simp [lexLtChars, hbc, hcb] at h2
            · have hbceq : b = c :=
                le_antisymm (le_of_not_lt hcb) (le_of_not_lt hbc)
              subst hbceq
              simp [lexLtChars, hab]
        · by_cases hba : b < a
          · simp [lexLtChars, hab, hba] at h1
          · have habeq : a = b :=
              le_antisymm (le_of_not_lt hba) (le_of_not_lt hab)
            subst habeq
            simp only [lexLtChars, lt_irrefl, if_false] at h1
            by_cases hac : a < c
            · simp [lexLtChars, hac]
            · by_cases hca : c < a
              · simp [lexLtChars, hac, hca] at h2
              · simp only [lexLtChars, hac, hca, if_false] at h2 ⊢
                exact ih bs cs h1 h2

theorem lexLtChars_trichotomy : ∀ as bs : List Char,
    lexLtChars as bs = true ∨ as = bs ∨ lexLtChars bs as = true := by
  intro as
  induction as with
  | nil =>
    intro bs
    cases bs with
    | nil => exact Or.inr (Or.inl rfl)
    | cons b bs => exact Or.inl (by simp [lexLtChars])
  | cons a as ih =>
    intro bs
    cases bs with
    | nil => exact Or.inr (Or.inr (by simp [lexLtChars]))
    | cons b bs =>
      rcases lt_trichotomy a b with hab | heq | hba
      · exact Or.inl (by simp [lexLtChars, hab])
      · subst heq
        rcases ih bs with h | h | h
        · exact Or.inl (by simp [lexLtChars, lt_irrefl, h])
        · exact Or.inr (Or.inl (by rw [h]))
        · exact Or.inr (Or.inr (by simp [lexLtChars, lt_irrefl, h]))
      · exact Or.inr (Or.inr (by simp [lexLtChars, hba]))

theorem localeCompare_le_zero (a b : String) :
    localeCompare a b ≤ 0 ↔
      (lexLtChars a.data b.data = true ∨ a.data = b.data) := by
  unfold localeCompare
  by_cases h1 : lexLtChars a.data b.data = true
  · simp only [h1, if_true]
    norm_num
  · simp only [h1, Bool.false_eq_true, if_false]
    by_cases h2 : a.data = b.data
    · simp [h2]
    · simp only [h2, if_false]
      norm_num

theorem maybeSortLe_trans (fs : CollectionFilterState) :
    ∀ a b c : AnnotatedBoardGame,
    decide (maybeSortByScore fs a b ≤ 0) = true →
    decide (maybeSortByScore fs b c ≤ 0) = true →
    decide (maybeSortByScore fs a c ≤ 0) = true := by
  intro a b c h1 h2
  simp only [decide_eq_true_eq] at h1 h2 ⊢
  unfold maybeSortByScore at h1 h2 ⊢
  by_cases hcond :
      fs.playerCountRange.1 ≠ 1 ∨ fs.playerCountRange.2 ≠ ⊤
  · rw [if_pos hcond] at h1 h2 ⊢
    rw [sub_nonpos] at h1 h2 ⊢
    exact le_trans h2 h1
  · rw [if_neg hcond] at h1 h2 ⊢
    rw [localeCompare_le_zero] at h1 h2 ⊢
    rcases h1 with h1 | h1 <;> rcases h2 with h2 | h2
    · exact Or.inl (lexLtChars_trans _ _ _ h1 h2)
    · exact Or.inl (h2 ▸ h1)
    · exact Or.inl (h1 ▸ h2)
    · exact Or.inr (h1.trans h2)

theorem maybeSortLe_total (fs : CollectionFilterState) :
    ∀ a b : AnnotatedBoardGame,
    (decide (maybeSortByScore fs a b ≤ 0) ||
      decide (maybeSortByScore fs b a ≤ 0)) = true := by
  intro a b
  simp only [Bool.or_eq_true, decide_eq_true_eq]
  unfold maybeSortByScore
  by_cases hcond :
      fs.playerCountRange.1 ≠ 1 ∨ fs.playerCountRange.2 ≠ ⊤
  · rw [if_pos hcond, if_pos hcond, sub_nonpos, sub_nonpos]
    exact (le_total _ _).symm
  · rw [if_neg hcond, if_neg hcond, localeCompare_le_zero,
      localeCompare_le_zero]
    rcases lexLtChars_trichotomy a.name.data b.name.data with h | h | h
    · exact Or.inl (Or.inl h)
    · exact Or.inl (Or.inr h)
    · exact Or.inr (Or.inl h)

/-- C3: with a non-default player-count range the pipeline's output is
ordered descending by the per-item `calcSortScoreSum` over the active range;
with the full default range `[1, +∞)` it is ordered ascending by name under
the (modelled) locale comparison. -/
theorem pipeline_sort_stage (fs : CollectionFilterState)
    (games : List SimpleBoardGame) :
    (fs.playerCountRange ≠ ((1 : ℚ), (⊤ : WithTop ℚ)) →
      (applyFiltersAndSorts fs games).Pairwise (fun a b =>
        calcSortScoreSum b fs.playerCountRange.1 fs.playerCountRange.2 ≤
          calcSortScoreSum a fs.playerCountRange.1
            fs.playerCountRange.2)) ∧
    (fs.playerCountRange = ((1 : ℚ), (⊤ : WithTop ℚ)) →
      (applyFiltersAndSorts fs games).Pairwise (fun a b =>
        lexLtChars a.name.data b.name.data = true ∨
          a.name.data = b.name.data)) := by
  constructor
  · intro hne
    have hcond : fs.playerCountRange.1 ≠ 1 ∨ fs.playerCountRange.2 ≠ ⊤ := by
      by_contra h
      push_neg at h
      exact hne (Prod.ext h.1 h.2)
    unfold applyFiltersAndSorts sortJS
    refine List.Pairwise.imp ?_
      (List.sorted_mergeSort (maybeSortLe_trans fs) (maybeSortLe_total fs) _)
    intro a b hab
    simp only [decide_eq_true_eq] at hab
    unfold maybeSortByScore at hab
    rw [if_pos hcond] at hab
    exact sub_nonpos.mp hab
  · intro heq
    have hcond :
        ¬ (fs.playerCountRange.1 ≠ 1 ∨ fs.playerCountRange.2 ≠ ⊤) := by
      simp [heq]
    unfold applyFiltersAndSorts sortJS
    refine List.Pairwise.imp ?_
      (List.sorted_mergeSort (maybeSortLe_trans fs) (maybeSortLe_total fs) _)
    intro a b hab
    simp only [decide_eq_true_eq] at hab
    unfold maybeSortByScore at hab
    rw [if_neg hcond] at hab
    exact (localeCompare_le_zero _ _).mp hab

/-- A filter state whose player-count range is the non-default `[3, 3]`. -/
def scoreSortState : CollectionFilterState :=
  { emptyUserState with playerCountRange := ((3 : ℚ), ((3 : ℚ) : WithTop ℚ)) }

/-- A plain three-player game used in witnesses. -/
def sampleGameA : SimpleBoardGame :=
  { id := 10
    name := "Brass"
    type := "boardgame"
    minPlayers := 2
    maxPlayers := 4
    minPlaytime := 60
    maxPlaytime := 120
    averageWeight := 3
    userRating := some 8
    averageRating := 8
    recommendedPlayerCount := [⟨3, 7, some 10⟩] }

/-- A second plain game used in witnesses. -/
def sampleGameB : SimpleBoardGame :=
  { id := 11
    name := "Cascadia"
    type := "boardgame"
    minPlayers := 1
    maxPlayers := 4
    minPlaytime := 30
    maxPlaytime := 45
    averageWeight := 2
    userRating := none
    averageRating := 8
    recommendedPlayerCount := [⟨3, 9, some 5⟩] }

/-- Witness for C3 at the concrete `[3, 3]` player-count range. -/
theorem pipeline_sort_stage_witness :
    scoreSortState.playerCountRange ≠ ((1 : ℚ), (⊤ : WithTop ℚ)) ∧
    (applyFiltersAndSorts scoreSortState [sampleGameA, sampleGameB]).Pairwise
      (fun a b =>
        calcSortScoreSum b scoreSortState.playerCountRange.1
            scoreSortState.playerCountRange.2 ≤
          calcSortScoreSum a scoreSortState.playerCountRange.1
            scoreSortState.playerCountRange.2) :=
  ⟨by decide,
    (pipeline_sort_stage scoreSortState [sampleGameA, sampleGameB]).1
      (by decide)⟩

/-! ### Filter monotonicity (C5) -/

/-- Forget the annotation added by the pipeline: an output item "as the same
item" at the un-annotated level. -/
def stripGame (g : AnnotatedBoardGame) : SimpleBoardGame :=
  { id := g.id
    name := g.name
    type := g.type
    minPlayers := g.minPlayers
    maxPlayers := g.maxPlayers
    minPlaytime := g.minPlaytime
    maxPlaytime := g.maxPlaytime
    averageWeight := g.averageWeight
    userRating := g.userRating
    averageRating := g.averageRating
    recommendedPlayerCount :=
      g.recommendedPlayerCount.map AnnotatedRec.toPollRec }

/-- The first range is contained in the second (finite bounds). -/
def RangeSubsetF (r₁ r₂ : ℚ × ℚ) : Prop := r₂.1 ≤ r₁.1 ∧ r₁.2 ≤ r₂.2

/-- The first range is contained in the second (possibly infinite max). -/
def RangeSubsetT (r₁ r₂ : ℚ × WithTop ℚ) : Prop := r₂.1 ≤ r₁.1 ∧ r₁.2 ≤ r₂.2

/-- The two states differ only in one criterion's range, and the second
state's range contains the first's. -/
def WidensOneCriterionRange (s₁ s₂ : CollectionFilterState) : Prop :=
  (s₂ = { s₁ with playerCountRange := s₂.playerCountRange } ∧
    RangeSubsetT s₁.playerCountRange s₂.playerCountRange) ∨
  (s₂ = { s₁ with playtimeRange := s₂.playtimeRange } ∧
    RangeSubsetT s₁.playtimeRange s₂.playtimeRange) ∨
  (s₂ = { s₁ with complexityRange := s₂.complexityRange } ∧
    RangeSubsetF s₁.complexityRange s₂.complexityRange) ∨
  (s₂ = { s₁ with ratingsRange := s₂.ratingsRange } ∧
    RangeSubsetF s₁.ratingsRange s₂.ratingsRange)

/-- The pipeline's surviving items before annotation and sorting, with the
not-recommended test composed through the annotation. -/
def filteredSimple (fs : CollectionFilterState)
    (games : List SimpleBoardGame) : List SimpleBoardGame :=
  ((((((games.filter (maybeShowExpansions fs)).map
    (maybeShowInvalidPlayerCount fs)).filter
    (playerCountService.isWithinRange fs)).filter
    (playtimeService.isWithinRange fs)).filter
    (complexityService.isWithinRange fs)).filter
    (ratingsService.isWithinRange fs)).filter
    (fun g => maybeShowNotRecommended fs (addIsPlayerCountWithinRange fs g))

theorem map_maybeOutputList (fs : CollectionFilterState) (lbl : String)
    {ρ : Type} (l : List (GameOf ρ)) :
    l.map (maybeOutputList fs lbl) = l := by
  induction l with
  | nil => rfl
  | cons a l ih =>
    rw [List.map_cons, ih]
    rfl

theorem strip_annotate (fs : CollectionFilterState) (g : SimpleBoardGame) :
    stripGame (addIsPlayerCountWithinRange fs g) = g := by
  cases g
  simp [stripGame, addIsPlayerCountWithinRange, List.map_map, Function.comp]
  exact List.map_id _

theorem apply_eq_mergeSort (fs : CollectionFilterState)
    (games : List SimpleBoardGame) :
    applyFiltersAndSorts fs games =
      ((filteredSimple fs games).map
        (addIsPlayerCountWithinRange fs)).mergeSort
        (fun a b => decide (maybeSortByScore fs a b ≤ 0)) := by
  unfold applyFiltersAndSorts sortJS filteredSimple
  simp only [map_maybeOutputList]
  rw [List.filter_map]
  rfl

theorem mem_strip_apply (fs : CollectionFilterState)
    (games : List SimpleBoardGame) (g : SimpleBoardGame) :
    g ∈ (applyFiltersAndSorts fs games).map stripGame ↔
      g ∈ filteredSimple fs games := by
  rw [apply_eq_mergeSort]
  constructor
  · intro h
    obtain ⟨a, ha, hstrip⟩ := List.mem_map.mp h
    obtain ⟨g₀, hg₀, rfl⟩ := List.mem_map.mp (List.mem_mergeSort.mp ha)
    rw [strip_annotate] at hstrip
    exact hstrip ▸ hg₀
  · intro h
    exact List.mem_map.mpr ⟨addIsPlayerCountWithinRange fs g,
      List.mem_mergeSort.mpr (List.mem_map.mpr ⟨g, h, rfl⟩),
      strip_annotate fs g⟩

theorem maybeShowExpansions_congr {s₁ s₂ : CollectionFilterState}
    (h : s₂.showExpansions = s₁.showExpansions) :
    maybeShowExpansions s₂ = maybeShowExpansions s₁ := by
  funext g
  unfold maybeShowExpansions
  rw [h]

theorem maybeShowInvalidPlayerCount_congr {s₁ s₂ : CollectionFilterState}
    (h : s₂.showInvalidPlayerCount = s₁.showInvalidPlayerCount) :
    maybeShowInvalidPlayerCount s₂ = maybeShowInvalidPlayerCount s₁ := by
  funext g
  unfold maybeShowInvalidPlayerCount
  rw [h]

theorem playerCount_isWithinRange_congr {s₁ s₂ : CollectionFilterState}
    (h : s₂.playerCountRange = s₁.playerCountRange) :
    playerCountService.isWithinRange s₂ =
      playerCountService.isWithinRange s₁ := by
  funext g
  unfold playerCountService.isWithinRange
  rw [h]

theorem playtime_isWithinRange_congr {s₁ s₂ : CollectionFilterState}
    (h : s₂.playtimeRange = s₁.playtimeRange) :
    playtimeService.isWithinRange s₂ = playtimeService.isWithinRange s₁ := by
  funext g
  unfold playtimeService.isWithinRange
  rw [h]

theorem complexity_isWithinRange_congr {s₁ s₂ : CollectionFilterState}
    (h : s₂.complexityRange = s₁.complexityRange) :
    complexityService.isWithinRange s₂ =
      complexityService.isWithinRange s₁ := by
  funext g
  unfold complexityService.isWithinRange
  rw [h]

theorem ratings_isWithinRange_congr {s₁ s₂ : CollectionFilterState}
    (h1 : s₂.ratingsRange = s₁.ratingsRange)
    (h2 : s₂.showRatings = s₁.showRatings) :
    ratingsService.isWithinRange s₂ = ratingsService.isWithinRange s₁ := by
  funext g
  unfold ratingsService.isWithinRange
  rw [h1, h2]

theorem addIsPlayerCountWithinRange_congr {s₁ s₂ : CollectionFilterState}
    (h : s₂.playerCountRange = s₁.playerCountRange) :
    addIsPlayerCountWithinRange s₂ = addIsPlayerCountWithinRange s₁ := by
  funext g
  unfold addIsPlayerCountWithinRange
  rw [h]

theorem maybeShowNotRecommended_congr {s₁ s₂ : CollectionFilterState}
    (hsn : s₂.showNotRecommended = s₁.showNotRecommended)
    (hsi : s₂.showInvalidPlayerCount = s₁.showInvalidPlayerCount) :
    maybeShowNotRecommended s₂ = maybeShowNotRecommended s₁ := by
  funext g
  unfold maybeShowNotRecommended
  rw [hsn, hsi]

theorem isBGR_mono {gr : ℚ × ℚ} {r₁ r₂ : ℚ × WithTop ℚ}
    (h21 : r₂.1 ≤ r₁.1) (h12 : r₁.2 ≤ r₂.2)
    (h : isBoardGameRangeWithinFilterRange gr r₁ = true) :
    isBoardGameRangeWithinFilterRange gr r₂ = true := by
  simp only [isBoardGameRangeWithinFilterRange, Bool.and_eq_true,
    decide_eq_true_eq] at h ⊢
  exact ⟨le_trans h21 h.1, le_trans h.2 h12⟩

theorem complexity_isWithinRange_mono {s₁ s₂ : CollectionFilterState}
    (h21 : s₂.complexityRange.1 ≤ s₁.complexityRange.1)
    (h12 : s₁.complexityRange.2 ≤ s₂.complexityRange.2)
    (g : SimpleBoardGame) :
    complexityService.isWithinRange s₁ g = true →
    complexityService.isWithinRange s₂ g = true := by
  simp only [complexityService.isWithinRange, Bool.and_eq_true,
    decide_eq_true_eq]
  exact fun h => ⟨le_trans h21 h.1, le_trans h.2 h12⟩

theorem ratings_isWithinRange_mono {s₁ s₂ : CollectionFilterState}
    (hsr : s₂.showRatings = s₁.showRatings)
    (h21 : s₂.ratingsRange.1 ≤ s₁.ratingsRange.1)
    (h12 : s₁.ratingsRange.2 ≤ s₂.ratingsRange.2)
    (g : SimpleBoardGame) :
    ratingsService.isWithinRange s₁ g = true →
    ratingsService.isWithinRange s₂ g = true := by
  unfold ratingsService.isWithinRange
  rw [hsr]
  exact fun h => isBGR_mono h21 (WithTop.coe_le_coe.mpr h12) h

theorem notrec_annot_mono {s₁ s₂ : CollectionFilterState}
    (hsn : s₂.showNotRecommended = s₁.showNotRecommended)
    (hsi : s₂.showInvalidPlayerCount = s₁.showInvalidPlayerCount)
    (h21 : s₂.playerCountRange.1 ≤ s₁.playerCountRange.1)
    (h12 : s₁.playerCountRange.2 ≤ s₂.playerCountRange.2)
    (g : SimpleBoardGame) :
    maybeShowNotRecommended s₁ (addIsPlayerCountWithinRange s₁ g) = true →
    maybeShowNotRecommended s₂ (addIsPlayerCountWithinRange s₂ g) = true := by
  rw [maybeShowNotRecommended_iff, maybeShowNotRecommended_iff, hsn, hsi]
  rintro (h | h | h)
  · exact Or.inl h
  · exact Or.inr (Or.inl h)
  · refine Or.inr (Or.inr ?_)
    obtain ⟨rec, hmem, hflag, hpass⟩ := h
    unfold addIsPlayerCountWithinRange at hmem ⊢
    simp only [List.mem_map] at hmem
    obtain ⟨r₀, hr₀, rfl⟩ := hmem
    refine ⟨{ r₀ with
      isPlayerCountWithinRange :=
        decide (s₂.playerCountRange.1 ≤ r₀.playerCountValue) &&
        decide ((r₀.playerCountValue : WithTop ℚ) ≤
          s₂.playerCountRange.2) }, ?_, ?_, ?_⟩
    · simp only [List.mem_map]
      exact ⟨r₀, hr₀, rfl⟩
    · simp only [Bool.and_eq_true, decide_eq_true_eq] at hflag ⊢
      exact ⟨le_trans h21 hflag.1, le_trans hflag.2 h12⟩
    · exact hpass

/-- C5: for every pair of filter states that differ only in one criterion's
range, the second containing the first, every item present (up to its
annotation) in the pipeline's result under the narrower state is also
present under the wider state; equivalently, narrowing a range never adds
an item. -/
theorem filter_monotonicity (s₁ s₂ : CollectionFilterState)
    (games : List SimpleBoardGame) (g : SimpleBoardGame)
    (hw : WidensOneCriterionRange s₁ s₂)
    (hmem : g ∈ (applyFiltersAndSorts s₁ games).map stripGame) :
    g ∈ (applyFiltersAndSorts s₂ games).map stripGame := by
  rw [mem_strip_apply] at hmem ⊢
  unfold filteredSimple at hmem ⊢
  simp only [List.mem_filter] at hmem ⊢
  obtain ⟨⟨⟨⟨⟨hM, hpc⟩, hpt⟩, hcx⟩, hrt⟩, hnr⟩ := hmem
  rcases hw with ⟨heq, hsub⟩ | ⟨heq, hsub⟩ | ⟨heq, hsub⟩ | ⟨heq, hsub⟩
  · -- player-count range widened
    have hexp : s₂.showExpansions = s₁.showExpansions := by rw [heq]
    have hinv : s₂.showInvalidPlayerCount = s₁.showInvalidPlayerCount := by
      rw [heq]
    have hptR : s₂.playtimeRange = s₁.playtimeRange := by rw [heq]
    have hcxR : s₂.complexityRange = s₁.complexityRange := by rw [heq]
    have hrtR : s₂.ratingsRange = s₁.ratingsRange := by rw [heq]
    have hsr : s₂.showRatings = s₁.showRatings := by rw [heq]
    have hsn : s₂.showNotRecommended = s₁.showNotRecommended := by rw [heq]
    refine ⟨⟨⟨⟨⟨?_, ?_⟩, ?_⟩, ?_⟩, ?_⟩, ?_⟩
    · rw [maybeShowExpansions_congr hexp,
        maybeShowInvalidPlayerCount_congr hinv]
      exact hM
    · unfold playerCountService.isWithinRange at hpc ⊢
      exact isBGR_mono hsub.1 hsub.2 hpc
    · rw [playtime_isWithinRange_congr hptR]
      exact hpt
    · rw [complexity_isWithinRange_congr hcxR]
      exact hcx
    · rw [ratings_isWithinRange_congr hrtR hsr]
      exact hrt
    · exact notrec_annot_mono hsn hinv hsub.1 hsub.2 g hnr
  · -- playtime range widened
    have hexp : s₂.showExpansions = s₁.showExpansions := by rw [heq]
    have hinv : s₂.showInvalidPlayerCount = s₁.showInvalidPlayerCount := by
      rw [heq]
    have hpcR : s₂.playerCountRange = s₁.playerCountRange := by rw [heq]
    have hcxR : s₂.complexityRange = s₁.complexityRange := by rw [heq]
    have hrtR : s₂.ratingsRange = s₁.ratingsRange := by rw [heq]
    have hsr : s₂.showRatings = s₁.showRatings := by rw [heq]
    have hsn : s₂.showNotRecommended = s₁.showNotRecommended := by rw [heq]
    refine ⟨⟨⟨⟨⟨?_, ?_⟩, ?_⟩, ?_⟩, ?_⟩, ?_⟩
    · rw [maybeShowExpansions_congr hexp,
        maybeShowInvalidPlayerCount_congr hinv]
      exact hM
    · rw [playerCount_isWithinRange_congr hpcR]
      exact hpc
    · unfold playtimeService.isWithinRange at hpt ⊢
      exact isBGR_mono hsub.1 hsub.2 hpt
    · rw [complexity_isWithinRange_congr hcxR]
      exact hcx
    · rw [ratings_isWithinRange_congr hrtR hsr]
      exact hrt
    · rw [addIsPlayerCountWithinRange_congr hpcR,
        maybeShowNotRecommended_congr hsn hinv]
      exact hnr
  · -- complexity range widened
    have hexp : s₂.showExpansions = s₁.showExpansions := by rw [heq]
    have hinv : s₂.showInvalidPlayerCount = s₁.showInvalidPlayerCount := by
      rw [heq]
    have hpcR : s₂.playerCountRange = s₁.playerCountRange := by rw [heq]
    have hptR : s₂.playtimeRange = s₁.playtimeRange := by rw [heq]
    have hrtR : s₂.ratingsRange = s₁.ratingsRange := by rw [heq]
    have hsr : s₂.showRatings = s₁.showRatings := by rw [heq]
    have hsn : s₂.showNotRecommended = s₁.showNotRecommended := by rw [heq]
    refine ⟨⟨⟨⟨⟨?_, ?_⟩, ?_⟩, ?_⟩, ?_⟩, ?_⟩
    · rw [maybeShowExpansions_congr hexp,
        maybeShowInvalidPlayerCount_congr hinv]
      exact hM
    · rw [playerCount_isWithinRange_congr hpcR]
      exact hpc
    · rw [playtime_isWithinRange_congr hptR]
      exact hpt
    · exact complexity_isWithinRange_mono hsub.1 hsub.2 g hcx
    · rw [ratings_isWithinRange_congr hrtR hsr]
      exact hrt
    · rw [addIsPlayerCountWithinRange_congr hpcR,
        maybeShowNotRecommended_congr hsn hinv]
      exact hnr
  · -- ratings range widened
    have hexp : s₂.showExpansions = s₁.showExpansions := by rw [heq]
    have hinv : s₂.showInvalidPlayerCount = s₁.showInvalidPlayerCount := by
      rw [heq]
    have hpcR : s₂.playerCountRange = s₁.playerCountRange := by rw [heq]
    have hptR : s₂.playtimeRange = s₁.playtimeRange := by rw [heq]
    have hcxR : s₂.complexityRange = s₁.complexityRange := by rw [heq]
    have hsr : s₂.showRatings = s₁.showRatings := by rw [heq]
    have hsn : s₂.showNotRecommended = s₁.showNotRecommended := by rw [heq]
    refine ⟨⟨⟨⟨⟨?_, ?_⟩, ?_⟩, ?_⟩, ?_⟩, ?_⟩
    · rw [maybeShowExpansions_congr hexp,
        maybeShowInvalidPlayerCount_congr hinv]
      exact hM
    · rw [playerCount_isWithinRange_congr hpcR]
      exact hpc
    · rw [playtime_isWithinRange_congr hptR]
      exact hpt
    · rw [complexity_isWithinRange_congr hcxR]
      exact hcx
    · exact ratings_isWithinRange_mono hsr hsub.1 hsub.2 g hrt
    · rw [addIsPlayerCountWithinRange_congr hpcR,
        maybeShowNotRecommended_congr hsn hinv]
      exact hnr

/-- A state whose ratings range `[8, 9]` is narrower than
`wideRatingsState`'s `[7, 10]`. -/
def narrowRatingsState : CollectionFilterState :=
  { emptyUserState with ratingsRange := (8, 9) }

/-- A state identical to `narrowRatingsState` except for a wider ratings
range. -/
def wideRatingsState : CollectionFilterState :=
  { emptyUserState with ratingsRange := (7, 10) }

/-- Witness for C5 at a concrete ratings-range widening. -/
theorem filter_monotonicity_witness :
    WidensOneCriterionRange narrowRatingsState wideRatingsState ∧
    sampleGameA ∈
      (applyFiltersAndSorts narrowRatingsState [sampleGameA]).map
        stripGame ∧
    sampleGameA ∈
      (applyFiltersAndSorts wideRatingsState [sampleGameA]).map
        stripGame := by
  have hw : WidensOneCriterionRange narrowRatingsState wideRatingsState := by
    unfold WidensOneCriterionRange RangeSubsetF RangeSubsetT
    decide
  have hg : sampleGameA ∈
      (applyFiltersAndSorts narrowRatingsState [sampleGameA]).map
        stripGame := by
    rw [mem_strip_apply]
    decide
  exact ⟨hw, hg, filter_monotonicity _ _ _ _ hw hg⟩

example : convertRangeQueryParamToValue (some "7-9") = (7, 9) := by decide
example : convertRangeQueryParamToValue (some "foo") = (1, 10) := by decide
example : convertRangeQueryParamToValue none = (1, 10) := by decide
example : convertRangeQueryParamToValue (some "7") = (7, 7) := by decide
example : convertRangeQueryParamToValue (some "9-2") = (9, 2) := by decide
example : convertRangeQueryParamToValue (some "0.5-11") = (1, 10) := by decide
example : convertRangeQueryParamToValue (some "-5") = (1, 5) := by decide

end BggApp
